import Mathlib

/-!
Shallow embedding of the peer link controller in `src/net/IfController.c`
(together with the state enumeration of `src/net/IfController.h`).

Times are milliseconds since the epoch, modelled as `Nat` (the `uint64_t`
arithmetic of the source cannot wrap at realistic clock values; the one
truncating subtraction, the `timeOfLastMessage` seeding, is noted where it
occurs).  The `uint32_t` counter `pingCount` is reduced modulo `2^32` at
each increment, as in the source.

External collaborators (CryptoAuth, SwitchCore, SwitchPinger, AddressCalc,
Version) are not part of `src/`; their outcomes enter the embedding as
explicit parameters (the crypto session state, the switch registration
result, the compatibility predicate), and the one fact the control flow
reads from them (`AddressCalc_validAddress`) is modelled from the spec.
-/

/-- Peer states of `IfController.h`.  The source gives them the integer
values `NEW = CryptoAuth_NEW = 0`, `HANDSHAKE1..3 = 1..3`,
`ESTABLISHED = CryptoAuth_ESTABLISHED = 4`, `UNRESPONSIVE = -1`,
`UNAUTHENTICATED = -2`; comparisons in the C source are on these values. -/
inductive PeerState where
  | NEW
  | HANDSHAKE1
  | HANDSHAKE2
  | HANDSHAKE3
  | ESTABLISHED
  | UNRESPONSIVE
  | UNAUTHENTICATED
deriving DecidableEq

/-- Integer value of each peer state, from the enum in `IfController.h`. -/
def PeerState.toInt : PeerState → Int
  | .NEW => 0
  | .HANDSHAKE1 => 1
  | .HANDSHAKE2 => 2
  | .HANDSHAKE3 => 3
  | .ESTABLISHED => 4
  | .UNRESPONSIVE => -1
  | .UNAUTHENTICATED => -2

/-- States of the external CryptoAuth session, values `0..4`
(`CryptoAuth_STATE_COUNT == 5` is asserted in `IfController.h`). -/
inductive CaState where
  | NEW
  | HANDSHAKE1
  | HANDSHAKE2
  | HANDSHAKE3
  | ESTABLISHED
deriving DecidableEq

/-- The assignment `ep->state = caState` in `receivedAfterCryptoAuth`:
the peer state takes the numeric value of the CryptoAuth state. -/
def PeerState.ofCa : CaState → PeerState
  | .NEW => .NEW
  | .HANDSHAKE1 => .HANDSHAKE1
  | .HANDSHAKE2 => .HANDSHAKE2
  | .HANDSHAKE3 => .HANDSHAKE3
  | .ESTABLISHED => .ESTABLISHED

/-- The fields of `struct Peer` that the verified code paths read or write.
`lladdr` is the opaque link-layer address (byte-compared in the source, an
opaque `Nat` here), `key` the 32-byte public key as a byte list, `ip6` the
derived address, `addrPath` the switch path label, `handle` the map handle. -/
structure Peer where
  lladdr : Nat
  key : List Nat
  ip6 : List Nat
  addrPath : Nat
  protocolVersion : Nat
  timeOfLastMessage : Nat
  timeOfLastPing : Nat
  pingCount : Nat
  handle : Nat
  isIncomingConnection : Bool
  state : PeerState
  bytesOut : Nat
  bytesIn : Nat
deriving DecidableEq

/-- An all-zero peer, as produced by `Allocator_calloc` (state value 0 is
`NEW`, `isIncomingConnection` false). -/
def blankPeer (h : Nat) (lla : Nat) : Peer :=
  { lladdr := lla, key := [], ip6 := [], addrPath := 0, protocolVersion := 0,
    timeOfLastMessage := 0, timeOfLastPing := 0, pingCount := 0, handle := h,
    isIncomingConnection := false, state := PeerState.NEW,
    bytesOut := 0, bytesIn := 0 }

/-- Default peer used only to totalize list indexing at indices the source
has already bounds-checked. -/
def defaultPeer : Peer := blankPeer 0 0

/-- Tuning fields of `struct IfController_pvt` used by the ping tick. -/
structure IcConf where
  unresponsiveAfterMilliseconds : Nat
  pingAfterMilliseconds : Nat
  forgetAfterMilliseconds : Nat
deriving DecidableEq

/-- The defaults set in `IfController_new`: 20*1024, 3*1024, 256*1024. -/
def defaultConf : IcConf :=
  { unresponsiveAfterMilliseconds := 20 * 1024,
    pingAfterMilliseconds := 3 * 1024,
    forgetAfterMilliseconds := 256 * 1024 }

/-- Event kinds published through `sendPeer` (PFChan_Core_PEER and
PFChan_Core_PEER_GONE). -/
inductive EvKind where
  | peer
  | peerGone
deriving DecidableEq

/-- One `sendPeer` call: the event kind, the pathfinder id, and the fields
serialized from the peer's address, plus the peer's handle recording which
peer the call was made for. -/
structure PeerEv where
  kind : EvKind
  pathfinderId : Nat
  handle : Nat
  key : List Nat
  path : Nat
  version : Nat
deriving DecidableEq

/-- Externally visible actions of the controller: event publications,
switch pings issued through `SwitchPinger_newPing`, and
`SwitchCore_swapInterfaces` calls (identified by the two peers' handles). -/
inductive Act where
  | ev (e : PeerEv)
  | ping (handle : Nat) (path : Nat)
  | swapIf (a : Nat) (b : Nat)
deriving DecidableEq

/-- The broadcast pathfinder id 0xffffffff. -/
def bcastPf : Nat := 0xffffffff

/-- The `sendPeer` helper of the source, reduced to the action it emits. -/
def sendPeerAct (kind : EvKind) (pfId : Nat) (p : Peer) : Act :=
  Act.ev { kind := kind, pathfinderId := pfId, handle := p.handle,
              key := p.key, path := p.addrPath, version := p.protocolVersion }

/-- The `sendPing` helper: increments `pingCount` (a `uint32_t`) and issues
one switch ping to the peer's path.  It touches no timestamp. -/
def sendPing (ep : Peer) : Peer × List Act :=
  ({ ep with pingCount := (ep.pingCount + 1) % 4294967296 },
   [Act.ping ep.handle ep.addrPath])

/-- The `closeInterface` on-free job: publish PEER_GONE for the peer, then
remove its entry (looked up by handle) from the owning interface's map. -/
def closeInterface (p : Peer) (m : List Peer) : List Peer × List Act :=
  (m.eraseP (fun q => q.handle == p.handle),
   [sendPeerAct EvKind.peerGone bcastPf p])

/-- Loop body of `iciPing`.  The C loop is
`for (i = startAt, count = 0; count < peerMap.count;) { i = (i+1) % count; count++; ... }`;
`fuel` bounds the iterations (the visit counter increases every step while
the live map length never grows, so `m.length` steps suffice and the
fuel-exhausted case coincides with the loop condition turning false).
A destroyed peer's removal shifts later entries down one slot. -/
def iciLoop (c : IcConf) (now : Nat) :
    Nat → Nat → Nat → List Peer → List Peer × List Act
  | 0, _i, _cnt, m => (m, [])
  | Nat.succ fuel, i, cnt, m =>
    if cnt < m.length then
      let i1 := (i + 1) % m.length
      let ep := m.getD i1 defaultPeer
      if now < ep.timeOfLastMessage + c.pingAfterMilliseconds ∧
          now < ep.timeOfLastPing + c.pingAfterMilliseconds then
        -- possibly an out-of-date node which is mangling packets: skip it
        iciLoop c now fuel i1 (cnt + 1) m
      else if ep.isIncomingConnection = true ∧
          now > ep.timeOfLastMessage + c.forgetAfterMilliseconds then
        -- drop the connection: direct PEER_GONE, then the allocator free
        -- runs closeInterface (a second PEER_GONE plus the map removal)
        let closed := closeInterface ep m
        let rest := iciLoop c now fuel i1 (cnt + 1) closed.1
        (rest.1, sendPeerAct EvKind.peerGone bcastPf ep :: (closed.2 ++ rest.2))
      else if now > ep.timeOfLastMessage + c.unresponsiveAfterMilliseconds then
        if ep.pingCount % 8 ≠ 0 then
          -- skip 87% of pings when they are really down
          let m1 := m.set i1 { ep with pingCount := (ep.pingCount + 1) % 4294967296 }
          let rest := iciLoop c now fuel i1 (cnt + 1) m1
          (rest.1, sendPeerAct EvKind.peerGone bcastPf ep :: rest.2)
        else
          let sp := sendPing { ep with state := PeerState.UNRESPONSIVE }
          (m.set i1 sp.1, sendPeerAct EvKind.peerGone bcastPf ep :: sp.2)
      else
        let sp := sendPing ep
        (m.set i1 sp.1, sp.2)
    else (m, [])

/-- The per-interface ping tick `iciPing`: return on an empty map, else scan
from a uniformly random offset (`Random_uint32 % count`, here the reduction
of an arbitrary `randVal`). -/
def iciPing (c : IcConf) (now : Nat) (randVal : Nat) (m : List Peer) :
    List Peer × List Act :=
  if m.length = 0 then (m, [])
  else iciLoop c now m.length (randVal % m.length) 0 m

/-- Predicate for the two-sided silence test that makes `iciPing` pass a
peer over (both `now < timeOfLastMessage + pingAfter` and
`now < timeOfLastPing + pingAfter`). -/
def skippedPeer (c : IcConf) (now : Nat) (p : Peer) : Prop :=
  now < p.timeOfLastMessage + c.pingAfterMilliseconds ∧
  now < p.timeOfLastPing + c.pingAfterMilliseconds

instance (c : IcConf) (now : Nat) (p : Peer) : Decidable (skippedPeer c now p) :=
  inferInstanceAs (Decidable (_ ∧ _))

/-- Predicate for the drop-connection branch of `iciPing` (incoming peer
silent past `forgetAfter`). -/
def forgettablePeer (c : IcConf) (now : Nat) (p : Peer) : Prop :=
  p.isIncomingConnection = true ∧
  now > p.timeOfLastMessage + c.forgetAfterMilliseconds

instance (c : IcConf) (now : Nat) (p : Peer) : Decidable (forgettablePeer c now p) :=
  inferInstanceAs (Decidable (_ ∧ _))

/-- Recognizer for ping actions. -/
def isPingAct : Act → Bool
  | Act.ping _ _ => true
  | _ => false

/-- Recognizer for a PEER_GONE publication made for the peer with handle `h`. -/
def isGoneFor (h : Nat) : Act → Bool
  | Act.ev e => e.kind == EvKind.peerGone && e.handle == h
  | _ => false

/-- Recognizer for PEER (not PEER_GONE) publications. -/
def isPeerEvAct : Act → Bool
  | Act.ev e => e.kind == EvKind.peer
  | _ => false

/-- The handle of the peer an action concerns. -/
def Act.target : Act → Nat
  | Act.ev e => e.handle
  | Act.ping h _ => h
  | Act.swapIf _ b => b

/-- Result of `receivedAfterCryptoAuth`: the updated peer `ep`, the other
peers of the same interface's map (one of which relocation may destroy),
the emitted actions, and whether the frame was forwarded to the switch
(`Iface_send(&ep->switchIf, msg)` was reached) rather than dropped. -/
structure RxOut where
  ep : Peer
  others : List Peer
  actions : List Act
  forwarded : Bool
deriving DecidableEq

/-- The `moveEndpointIfNeeded` merge: scan the interface's map for another
peer (pointer inequality becomes handle inequality) with the same 32-byte
key; on a hit, take over its path label, swap the two switch interface
bindings, and free the old peer (running `closeInterface`). -/
def moveEndpointIfNeeded (ep : Peer) (others : List Peer) :
    Peer × List Peer × List Act :=
  match others.find? (fun q => q.handle != ep.handle && q.key == ep.key) with
  | none => (ep, others, [])
  | some old =>
    let ep1 := { ep with addrPath := old.addrPath }
    let closed := closeInterface old others
    (ep1, closed.1, Act.swapIf old.handle ep.handle :: closed.2)

/-- An inbound message which has passed through the CryptoAuth session
(`receivedAfterCryptoAuth`).  `msg` still carries the 4-byte nonce that the
function pops first; `hpk` is the session's remote public key
(`CryptoAuth_getHerPublicKey`), `ip6Of` the external address derivation run
by `Address_getPrefix`, `caState` the session state.  Note that the peer
state comparison `ep->state < ESTABLISHED` is on the enum's integer values,
so it is also true for `UNRESPONSIVE = -1` and `UNAUTHENTICATED = -2`. -/
def receivedAfterCryptoAuth (hpk : List Nat) (ip6Of : List Nat → List Nat)
    (now : Nat) (caState : CaState) (msg : List Nat)
    (ep : Peer) (others : List Peer) : RxOut :=
  let content := msg.drop 4
  let ep0 := { ep with bytesIn := ep.bytesIn + content.length }
  if ep0.state.toInt < 4 then
    -- EP states track CryptoAuth states; learn the key and derive ip6
    let ep1 := { ep0 with state := PeerState.ofCa caState, key := hpk,
                          ip6 := ip6Of hpk }
    if caState = CaState.ESTABLISHED then
      let mv := moveEndpointIfNeeded ep1 others
      { ep := mv.1, others := mv.2.1,
        actions := mv.2.2 ++ [sendPeerAct EvKind.peer bcastPf mv.1],
        forwarded := true }
    else
      if content.length < 8 ∨ content.getD 7 0 ≠ 1 then
        -- DROP message because CA is not established
        { ep := ep1, others := others, actions := [], forwarded := false }
      else if ((ep1.pingCount + 1) % 4294967296) % 7 ≠ 0 then
        let sp := sendPing ep1
        { ep := sp.1, others := others, actions := sp.2, forwarded := true }
      else
        { ep := ep1, others := others, actions := [], forwarded := true }
  else if ep0.state = PeerState.UNRESPONSIVE ∧ caState = CaState.ESTABLISHED then
    { ep := { ep0 with state := PeerState.ESTABLISHED }, others := others,
      actions := [], forwarded := true }
  else
    { ep := { ep0 with timeOfLastMessage := now }, others := others,
      actions := [], forwarded := true }

/-- The `onPingResponse` callback.  `resOk` is whether the SwitchPinger
result was `SwitchPinger_Result_OK`, `compat` the external
`Version_isCompatible(Version_CURRENT_PROTOCOL, ·)` predicate, `version`
and `label` the fields of the response.  The label is compared against the
peer's path only inside the debug-logging block, so it does not influence
the state change; `protocolVersion` is assigned before the compatibility
check. -/
def onPingResponse (compat : Nat → Bool) (now : Nat)
    (resOk : Bool) (version : Nat) (label : Nat) (ep : Peer) :
    Peer × List Act :=
  if resOk = false then (ep, [])
  else
    let ep1 := { ep with protocolVersion := version }
    if compat version = false then (ep1, [])
    else
      let acts := if ep1.state = PeerState.ESTABLISHED then
          [sendPeerAct EvKind.peer bcastPf ep1]
        else []
      ({ ep1 with timeOfLastPing := now }, acts)

/-- Outcome of the external `SwitchCore_addInterface` call: success with an
assigned path label, `SwitchCore_addInterface_OUT_OF_SPACE`, or any other
nonzero error. -/
inductive SwitchRes where
  | ok (path : Nat)
  | outOfSpace
  | otherErr
deriving DecidableEq

/-- Modelled from the spec: `AddressCalc_validAddress` (crypto/AddressCalc,
not under src/) — a valid mesh address begins with the byte 0xfc. -/
def validAddress (ip6 : List Nat) : Bool := ip6.headD 0 == 0xfc

/-- The `IfController_bootstrapPeer` admin call.  `icis` is the controller's
interface list, each interface reduced to its peer map; `ip6Of` models the
external `AddressCalc_addressForPublicKey`; `swRes` the switch registration
outcome; `freshHandle` the handle the map assigns to the new entry.  The
entry is put into the map before the switch registration, so a failed
registration frees it again through `closeInterface` (removing the entry
and publishing one PEER_GONE).  The seeding of `timeOfLastMessage` to
`now - pingAfter - 1` uses truncating `Nat` subtraction; in the source this
is `uint64_t` arithmetic, which at realistic clock values never wraps. -/
def bootstrapPeer (ip6Of : List Nat → List Nat) (localKey : List Nat)
    (icis : List (List Peer)) (interfaceNumber : Nat)
    (herPublicKey : List Nat) (lladdrParm : Nat)
    (swRes : SwitchRes) (now : Nat) (pingAfter : Nat) (freshHandle : Nat) :
    Int × List (List Peer) × List Act :=
  match icis.get? interfaceNumber with
  | none => (-1, icis, [])
  | some m =>
    let ip6 := ip6Of herPublicKey
    if validAddress ip6 = false ∨ herPublicKey = localKey then
      (-2, icis, [])
    else
      let ep := { blankPeer freshHandle lladdrParm with
                  key := herPublicKey, ip6 := ip6 }
      match swRes with
      | SwitchRes.ok path =>
        let ep1 := { ep with addrPath := path,
                             timeOfLastMessage := now - pingAfter - 1 }
        let sp := sendPing ep1
        (0, icis.set interfaceNumber (m ++ [sp.1]), sp.2)
      | SwitchRes.outOfSpace =>
        let closed := closeInterface ep (m ++ [ep])
        (-3, icis.set interfaceNumber closed.1, closed.2)
      | SwitchRes.otherErr =>
        let closed := closeInterface ep (m ++ [ep])
        (-4, icis.set interfaceNumber closed.1, closed.2)

/-- The `handleUnexpectedIncoming` path: an inbound non-broadcast frame
from an unknown lladdr creates a speculative UNAUTHENTICATED incoming peer,
registers it with the switch, seeds `timeOfLastMessage` (truncating `Nat`
subtraction, see `bootstrapPeer`), and delivers the frame into the new
session; `sessionRejects` is whether that delivery returned nonzero, in
which case the peer's allocator is freed (running `closeInterface`). -/
def handleUnexpectedIncoming (m : List Peer) (lladdrIn : Nat)
    (freshHandle : Nat) (swRes : SwitchRes) (now : Nat) (pingAfter : Nat)
    (sessionRejects : Bool) : List Peer × List Act :=
  let ep := { blankPeer freshHandle lladdrIn with
              state := PeerState.UNAUTHENTICATED,
              isIncomingConnection := true }
  match swRes with
  | SwitchRes.ok path =>
    let ep1 := { ep with addrPath := path,
                         timeOfLastMessage := now - pingAfter - 1 }
    if sessionRejects then
      -- the first message is a dud: drop all state for this peer
      closeInterface ep1 (m ++ [ep1])
    else (m ++ [ep1], [])
  | _ =>
    closeInterface ep (m ++ [ep])

/-- Repeated delivery of the same inbound frame through
`receivedAfterCryptoAuth` (fresh frames of identical content), counting the
switch pings issued along the way. -/
def rxFeed (hpk : List Nat) (ip6Of : List Nat → List Nat) (now : Nat)
    (caState : CaState) (msg : List Nat) : Nat → Peer → Peer × Nat
  | 0, ep => (ep, 0)
  | Nat.succ n, ep =>
    let r := receivedAfterCryptoAuth hpk ip6Of now caState msg ep []
    let rest := rxFeed hpk ip6Of now caState msg n r.ep
    (rest.1, r.actions.countP isPingAct + rest.2)

/-- A peer state whose integer value is not below 4 is `ESTABLISHED` (the
enum values are -2, -1, 0..4). -/
lemma PeerState.established_of_not_lt {s : PeerState} (h : ¬ s.toInt < 4) :
    s = PeerState.ESTABLISHED := by
  cases s <;> first
    | rfl
    | exact absurd (by decide) h

/-- Setting a list index to the value it already holds keeps the list. -/
lemma set_get?_self {α : Type} : ∀ (l : List α) (n : Nat) (x : α),
    l.get? n = some x → l.set n x = l
  | [], _, _, h => by cases h
  | a :: l, 0, x, h => by
    simp only [List.get?] at h
    simp [Option.some_inj.mp h]
  | a :: l, Nat.succ n, x, h => by
    simp only [List.get?] at h
    simp [set_get?_self l n x h]

/-- Membership survives `List.set` at an index holding a different value. -/
lemma mem_set_of_ne_getD (m : List Peer) (i : Nat) (x p : Peer)
    (hp : p ∈ m) (hi : i < m.length) (hne : p ≠ m.getD i defaultPeer) :
    p ∈ m.set i x := by
  rcases List.mem_iff_getElem.mp hp with ⟨j, hj, hpj⟩
  have hji : i ≠ j := by
    intro h
    subst h
    exact hne (by rw [List.getD_eq_getElem m defaultPeer hi, hpj])
  have hj' : j < (m.set i x).length := by
    simpa [List.length_set] using hj
  exact List.mem_iff_getElem.mpr ⟨j, hj', by rw [List.getElem_set_ne hji, hpj]⟩

/-- Claim C10 (confirmed): for every inbound frame that the session
decrypts, `timeOfLastMessage` is set to the current time if and only if the
peer's state was already Established when the frame arrived; frames that
arrive pre-Established (including the one completing the handshake) and
frames that arrive while the peer is Unresponsive leave it unchanged
(Unresponsive, value -1, is caught by the `state < ESTABLISHED` branch,
which never touches the timestamp); `bytesIn` grows by the length of the
decrypted frame (after its 4-byte nonce is popped) in every case. -/
theorem c10_timeOfLastMessage_iff_established
    (hpk : List Nat) (ip6Of : List Nat → List Nat) (now : Nat)
    (caState : CaState) (msg : List Nat) (ep : Peer) (others : List Peer) :
    (receivedAfterCryptoAuth hpk ip6Of now caState msg ep others).ep.timeOfLastMessage
      = (if ep.state = PeerState.ESTABLISHED then now else ep.timeOfLastMessage) ∧
    (receivedAfterCryptoAuth hpk ip6Of now caState msg ep others).ep.bytesIn
      = ep.bytesIn + (msg.drop 4).length := by
  by_cases hlt : ep.state.toInt < 4
  · have hne : ep.state ≠ PeerState.ESTABLISHED := by
      intro h
      rw [h] at hlt
      exact absurd hlt (by decide)
    rw [if_neg hne]
    simp only [receivedAfterCryptoAuth]
    rw [if_pos hlt]
    by_cases hca : caState = CaState.ESTABLISHED
    · rw [if_pos hca]
      simp only [moveEndpointIfNeeded]
      constructor
      · split <;> rfl
      · split <;> rfl
    · rw [if_neg hca]
      split
      · exact ⟨rfl, rfl⟩
      · split <;> exact ⟨rfl, rfl⟩
  · have hest : ep.state = PeerState.ESTABLISHED :=
      PeerState.established_of_not_lt hlt
    rw [if_pos hest]
    simp only [receivedAfterCryptoAuth]
    rw [if_neg hlt]
    rw [if_neg (by
      intro h
      rw [hest] at h
      exact absurd h.1 (by decide))]
    exact ⟨rfl, rfl⟩

/-- A pre-Established frame whose switch header passes the
terminate-here check: four nonce bytes followed by eight content bytes with
byte 7 equal to 1. -/
def okFrame : List Nat := [0, 0, 0, 0, 0, 0, 0, 0, 0, 0, 0, 1]

/-- An Unresponsive peer whose session is still Established. -/
def unresponsivePeer : Peer :=
  { blankPeer 1 10 with state := PeerState.UNRESPONSIVE, key := [7],
                        timeOfLastMessage := 50 }

/-- Claim C5 (code bug, evaluation at the failing input): a valid frame for
an Unresponsive peer whose session is Established does move the state back
to Established, but it also publishes a PEER event and leaves
`timeOfLastMessage` untouched: because `UNRESPONSIVE = -1` compares below
`ESTABLISHED = 4`, the recovery is handled by the `state < ESTABLISHED`
branch of `receivedAfterCryptoAuth` (which runs relocation and
`sendPeer(PEER)`), and the dedicated silent-recovery branch of the source
(lines 436-439) is unreachable. -/
theorem c5_recovery_republishes_peer_event :
    (receivedAfterCryptoAuth [7] (fun _ => []) 999 CaState.ESTABLISHED
        okFrame unresponsivePeer []).ep.state = PeerState.ESTABLISHED ∧
    (receivedAfterCryptoAuth [7] (fun _ => []) 999 CaState.ESTABLISHED
        okFrame unresponsivePeer []).actions.countP isPeerEvAct = 1 ∧
    (receivedAfterCryptoAuth [7] (fun _ => []) 999 CaState.ESTABLISHED
        okFrame unresponsivePeer []).ep.timeOfLastMessage = 50 := by
  decide

/-- A freshly created (all-zero) peer, as seen by the first inbound frames
before its session establishes. -/
def preEstPeer : Peer := blankPeer 1 10

/-- Claim C4 counterexample: seven consecutive pre-Established frames, all
of which pass the byte-7 guard and are forwarded, provoke six opportunistic
switch pings — not "at most one out of every 7" — and the pings accompany
the forwarded frames, while dropped frames (byte 7 not 1) trigger no ping
at all. -/
theorem c4_counterexample :
    (rxFeed [5] (fun _ => []) 100 CaState.NEW okFrame 7 preEstPeer).2 = 6 ∧
    (rxFeed [5] (fun _ => []) 100 CaState.NEW okFrame 7 preEstPeer).1.state
      = PeerState.NEW ∧
    (receivedAfterCryptoAuth [5] (fun _ => []) 100 CaState.NEW
        [0, 0, 0, 0, 9, 9] preEstPeer []).forwarded = false ∧
    (receivedAfterCryptoAuth [5] (fun _ => []) 100 CaState.NEW
        [0, 0, 0, 0, 9, 9] preEstPeer []).actions = [] := by
  decide

/-- Claim C4 as amended: while the session is not yet Established (peer
state below Established and session state not Established), an inbound
decrypted frame is forwarded to the switch if and only if it is at least 8
bytes long with byte 7 equal to 1; a frame failing the check is dropped
with no action at all, and a frame passing it is forwarded and additionally
triggers an opportunistic switch ping unless `(pingCount + 1) % 7 == 0` —
about six of every seven such frames, not at most one in seven. -/
theorem c4_pre_established_guard
    (hpk : List Nat) (ip6Of : List Nat → List Nat) (now : Nat)
    (caState : CaState) (msg : List Nat) (ep : Peer) (others : List Peer)
    (hstate : ep.state.toInt < 4) (hca : caState ≠ CaState.ESTABLISHED) :
    ((receivedAfterCryptoAuth hpk ip6Of now caState msg ep others).forwarded = true
       ↔ (8 ≤ (msg.drop 4).length ∧ (msg.drop 4).getD 7 0 = 1)) ∧
    (¬ (8 ≤ (msg.drop 4).length ∧ (msg.drop 4).getD 7 0 = 1) →
       (receivedAfterCryptoAuth hpk ip6Of now caState msg ep others).actions = []) ∧
    ((8 ≤ (msg.drop 4).length ∧ (msg.drop 4).getD 7 0 = 1) →
       (receivedAfterCryptoAuth hpk ip6Of now caState msg ep others).actions.countP
           isPingAct
         = (if ((ep.pingCount + 1) % 4294967296) % 7 ≠ 0 then 1 else 0)) := by
  simp only [receivedAfterCryptoAuth]
  rw [if_pos hstate, if_neg hca]
  by_cases hdrop : (msg.drop 4).length < 8 ∨ (msg.drop 4).getD 7 0 ≠ 1
  · rw [if_pos hdrop]
    dsimp only
    refine ⟨?_, fun _ => rfl, fun hok => ?_⟩
    · simp only [Bool.false_eq_true, false_iff]
      intro hok
      rcases hdrop with h | h
      · omega
      · exact h hok.2
    · exfalso
      rcases hdrop with h | h
      · omega
      · exact h hok.2
  · rw [if_neg hdrop]
    push_neg at hdrop
    refine ⟨?_, fun hbad => absurd ⟨by omega, hdrop.2⟩ hbad, fun _ => ?_⟩
    · constructor
      · intro _
        exact ⟨by omega, hdrop.2⟩
      · intro _
        split <;> rfl
    · split
      · rfl
      · rfl

/-- Claim C4 witness: a concrete pre-Established frame that passes the
guard with a fresh peer (pingCount 0) is forwarded and pinged. -/
theorem c4_pre_established_guard_witness :
    (receivedAfterCryptoAuth [5] (fun _ => []) 100 CaState.NEW okFrame
        preEstPeer []).forwarded = true :=
  (c4_pre_established_guard [5] (fun _ => []) 100 CaState.NEW okFrame
      preEstPeer [] (by decide) (by decide)).1.mpr (by decide)

/-- Claim C8 counterexample: a concrete unknown-source frame whose
speculative peer's session rejects the first delivery leaves an empty map
again, but the destruction publishes one PEER_GONE event — it is not
silent, and the claim that no event is published to any observer fails. -/
theorem c8_counterexample :
    (handleUnexpectedIncoming [] 5 1 (SwitchRes.ok 77) 10000 3072 true).1 = [] ∧
    (handleUnexpectedIncoming [] 5 1 (SwitchRes.ok 77) 10000 3072 true).2.countP
        (isGoneFor 1) = 1 ∧
    (handleUnexpectedIncoming [] 5 1 (SwitchRes.ok 77) 10000 3072 true).2 ≠ [] := by
  decide

/-- Claim C8 as amended: when an inbound non-broadcast frame from an
unknown lladdr creates a speculative Unauthenticated peer and the new
session immediately rejects that first frame, the peer is destroyed and its
map entry removed, but the destruction is not silent: the common free hook
(`closeInterface`) publishes exactly one PEER_GONE event for it (and no
PEER event). -/
theorem c8_reject_destroys_with_peer_gone
    (m : List Peer) (lladdrIn freshHandle path now pingAfter : Nat)
    (hfresh : ∀ p ∈ m, p.handle ≠ freshHandle) :
    (handleUnexpectedIncoming m lladdrIn freshHandle (SwitchRes.ok path)
        now pingAfter true).1 = m ∧
    (handleUnexpectedIncoming m lladdrIn freshHandle (SwitchRes.ok path)
        now pingAfter true).2.countP (isGoneFor freshHandle) = 1 ∧
    (handleUnexpectedIncoming m lladdrIn freshHandle (SwitchRes.ok path)
        now pingAfter true).2.countP isPeerEvAct = 0 := by
  simp only [handleUnexpectedIncoming, closeInterface, blankPeer,
             eq_self_iff_true, if_true]
  refine ⟨?_, ?_, ?_⟩
  · rw [List.eraseP_append_right _ (by
      intro b hb
      simp only [beq_iff_eq]
      exact hfresh b hb)]
    rw [List.eraseP_cons_of_pos (by simp)]
    simp
  · simp [sendPeerAct, isGoneFor, List.countP_cons, List.countP_nil]
  · simp [sendPeerAct, isPeerEvAct, List.countP_cons, List.countP_nil]

/-- Claim C8 witness: the amended behavior at a concrete input. -/
theorem c8_reject_destroys_with_peer_gone_witness :
    (handleUnexpectedIncoming [] 9 2 (SwitchRes.ok 3) 5000 3072 true).1 = [] :=
  (c8_reject_destroys_with_peer_gone [] 9 2 3 5000 3072 (by decide)).1

/-- An Established peer with path label 5, as hit by a ping response. -/
def establishedPeer : Peer :=
  { blankPeer 1 10 with state := PeerState.ESTABLISHED, addrPath := 5,
                        key := [7] }

/-- Claim C9 counterexample: a successful response whose label (9) does not
match the peer's path (5) but whose version is compatible is not ignored:
`protocolVersion` becomes 22, `timeOfLastPing` is advanced to 3200 and a
PEER event is re-published — the label mismatch is only logged, so a
mismatched-path response does cause a state change. -/
theorem c9_counterexample :
    (onPingResponse (fun _ => true) 3200 true 22 9 establishedPeer).1.timeOfLastPing
      = 3200 ∧
    (onPingResponse (fun _ => true) 3200 true 22 9 establishedPeer).1.protocolVersion
      = 22 ∧
    (onPingResponse (fun _ => true) 3200 true 22 9 establishedPeer).2.countP
        isPeerEvAct = 1 ∧
    establishedPeer.addrPath ≠ 9 := by
  decide

/-- Claim C9 as amended: on a ping response with an OK result,
`protocolVersion` is updated unconditionally — before and regardless of the
compatibility check; when the version is also compatible, `timeOfLastPing`
is set to the current time and, if the peer is Established, a PEER event is
re-published, all independently of whether the response's path label
matches the peer's (the mismatch is only logged); an incompatible version
causes no change beyond `protocolVersion` and no event; a failed result
changes nothing; and `timeOfLastPing` is advanced only by a ping response,
never by sending a ping. -/
theorem c9_ping_response_effects
    (compat : Nat → Bool) (now version label : Nat) (ep : Peer) :
    (onPingResponse compat now false version label ep = (ep, [])) ∧
    (compat version = false →
       (onPingResponse compat now true version label ep).1.protocolVersion = version ∧
       (onPingResponse compat now true version label ep).1.timeOfLastPing
         = ep.timeOfLastPing ∧
       (onPingResponse compat now true version label ep).2 = []) ∧
    (compat version = true →
       (onPingResponse compat now true version label ep).1.protocolVersion = version ∧
       (onPingResponse compat now true version label ep).1.timeOfLastPing = now ∧
       (onPingResponse compat now true version label ep).2.countP isPeerEvAct
         = (if ep.state = PeerState.ESTABLISHED then 1 else 0)) ∧
    (∀ label2 : Nat, onPingResponse compat now true version label ep
       = onPingResponse compat now true version label2 ep) ∧
    (sendPing ep).1.timeOfLastPing = ep.timeOfLastPing := by
  refine ⟨rfl, fun hc => ?_, fun hc => ?_, fun _ => rfl, rfl⟩
  · simp only [onPingResponse, hc]
    exact ⟨rfl, rfl, rfl⟩
  · simp only [onPingResponse, hc]
    refine ⟨rfl, rfl, ?_⟩
    by_cases hs : ep.state = PeerState.ESTABLISHED
    · rw [if_pos hs, if_pos hs]
      simp [sendPeerAct, isPeerEvAct, List.countP_cons, List.countP_nil]
    · rw [if_neg hs, if_neg hs]
      rfl

/-- Claim C9 witness: the amended behavior at a concrete compatible
response for an Established peer. -/
theorem c9_ping_response_effects_witness :
    (onPingResponse (fun _ => true) 3200 true 22 9 establishedPeer).1.timeOfLastPing
      = 3200 :=
  ((c9_ping_response_effects (fun _ => true) 3200 22 9 establishedPeer).2.2.1
      (by decide)).2.1

/-- Claim C7 counterexample: with a registered interface, a valid key and a
switch failure other than lack of space, `bootstrapPeer` returns INTERNAL
(-4) — not 0 and none of the codes the claim enumerates — so "otherwise it
returns 0" fails. -/
theorem c7_counterexample :
    (bootstrapPeer (fun _ => [0xfc]) [9] [[]] 0 [1] 5 SwitchRes.otherErr
        10000 3072 1).1 = -4 ∧
    ((-4 : Int) ≠ 0 ∧ (-4 : Int) ≠ -1 ∧ (-4 : Int) ≠ -2 ∧ (-4 : Int) ≠ -3) := by
  decide

/-- Claim C7 as amended: `bootstrapPeer` returns BAD_IFNUM (-1) when the
interface number names no registered interface and BAD_KEY (-2) when the
derived ip6 is not a valid mesh address or the key equals the local key, in
both cases with no side effects; when the switch reports no space it
returns OUT_OF_SPACE (-3) and no peer remains (the transient map entry is
removed again by the free hook, which publishes one PEER_GONE and no PEER
event); when the switch fails for any other reason it returns INTERNAL
(-4); otherwise it returns 0, the new peer is in the interface's map and
exactly one switch ping is issued to it. -/
theorem c7_bootstrap_return_codes
    (ip6Of : List Nat → List Nat) (localKey : List Nat)
    (icis : List (List Peer)) (ifNum : Nat) (herKey : List Nat)
    (lla : Nat) (now pingAfter freshHandle : Nat) :
    (icis.get? ifNum = none → ∀ swRes,
       bootstrapPeer ip6Of localKey icis ifNum herKey lla swRes now
           pingAfter freshHandle = (-1, icis, [])) ∧
    (icis.get? ifNum ≠ none →
     (validAddress (ip6Of herKey) = false ∨ herKey = localKey) → ∀ swRes,
       bootstrapPeer ip6Of localKey icis ifNum herKey lla swRes now
           pingAfter freshHandle = (-2, icis, [])) ∧
    (∀ m, icis.get? ifNum = some m →
       validAddress (ip6Of herKey) = true → herKey ≠ localKey →
       (∀ p ∈ m, p.handle ≠ freshHandle) →
       ((bootstrapPeer ip6Of localKey icis ifNum herKey lla
            SwitchRes.outOfSpace now pingAfter freshHandle).1 = -3 ∧
        (bootstrapPeer ip6Of localKey icis ifNum herKey lla
            SwitchRes.outOfSpace now pingAfter freshHandle).2.1 = icis ∧
        (bootstrapPeer ip6Of localKey icis ifNum herKey lla
            SwitchRes.outOfSpace now pingAfter freshHandle).2.2.countP
            (isGoneFor freshHandle) = 1 ∧
        (bootstrapPeer ip6Of localKey icis ifNum herKey lla
            SwitchRes.outOfSpace now pingAfter freshHandle).2.2.countP
            isPeerEvAct = 0) ∧
       ((bootstrapPeer ip6Of localKey icis ifNum herKey lla
            SwitchRes.otherErr now pingAfter freshHandle).1 = -4) ∧
       (∀ path,
          (bootstrapPeer ip6Of localKey icis ifNum herKey lla
              (SwitchRes.ok path) now pingAfter freshHandle).1 = 0 ∧
          (bootstrapPeer ip6Of localKey icis ifNum herKey lla
              (SwitchRes.ok path) now pingAfter freshHandle).2.2
            = [Act.ping freshHandle path] ∧
          ((bootstrapPeer ip6Of localKey icis ifNum herKey lla
              (SwitchRes.ok path) now pingAfter freshHandle).2.1.getD ifNum []).length
            = m.length + 1)) := by
  refine ⟨fun hnone swRes => ?_, fun hsome hbad swRes => ?_, fun m hm hva hk hfr => ?_⟩
  · simp only [bootstrapPeer, hnone]
  · rcases hx : icis.get? ifNum with _ | m
    · exact absurd hx hsome
    · simp only [bootstrapPeer, hx]
      rw [if_pos (by
        rcases hbad with h | h
        · exact Or.inl h
        · exact Or.inr h)]
  · have hcond : ¬ (validAddress (ip6Of herKey) = false ∨ herKey = localKey) := by
      rintro (h | h)
      · rw [hva] at h
        cases h
      · exact hk h
    refine ⟨⟨?_, ?_, ?_, ?_⟩, ?_, fun path => ⟨?_, ?_, ?_⟩⟩
    · simp only [bootstrapPeer, hm]
      rw [if_neg hcond]
    · simp only [bootstrapPeer, hm, closeInterface, blankPeer]
      rw [if_neg hcond]
      simp only
      rw [List.eraseP_append_right _ (by
        intro b hb
        simp only [beq_iff_eq]
        exact hfr b hb)]
      rw [List.eraseP_cons_of_pos (by simp)]
      rw [List.append_nil]
      exact set_get?_self icis ifNum m hm
    · simp only [bootstrapPeer, hm, closeInterface]
      rw [if_neg hcond]
      simp [sendPeerAct, isGoneFor, blankPeer, List.countP_cons, List.countP_nil]
    · simp only [bootstrapPeer, hm, closeInterface]
      rw [if_neg hcond]
      simp [sendPeerAct, isPeerEvAct, List.countP_cons, List.countP_nil]
    · simp only [bootstrapPeer, hm]
      rw [if_neg hcond]
    · simp only [bootstrapPeer, hm]
      rw [if_neg hcond]
    · simp only [bootstrapPeer, hm, sendPing]
      rw [if_neg hcond]
      simp [blankPeer]
    · simp only [bootstrapPeer, hm, sendPing]
      rw [if_neg hcond]
      simp only
      have hlt : ifNum < icis.length := by
        rcases List.get?_eq_some.mp hm with ⟨h, _⟩
        exact h
      rw [List.getD_eq_getElem?_getD, List.getElem?_set_self hlt]
      simp

/-- Claim C7 witness: at a concrete valid input with an out-of-space
switch, the amended claim yields return code -3. -/
theorem c7_bootstrap_return_codes_witness :
    (bootstrapPeer (fun _ => [0xfc]) [9] [[]] 0 [1] 5 SwitchRes.outOfSpace
        10000 3072 1).1 = -3 :=
  ((c7_bootstrap_return_codes (fun _ => [0xfc]) [9] [[]] 0 [1] 5
      10000 3072 1).2.2 [] (by decide) (by decide) (by decide)
      (by decide)).1.1

/-- Claim C6 (confirmed): when a peer transitions to Established and
exactly one other peer on the same interface holds an identical public key,
the new peer takes over the old peer's path label, the two switch interface
bindings are swapped, and only after the swap is the old peer destroyed
(its PEER_GONE publication and removal follow the swap in the action
trace); afterwards exactly one peer with that key remains on the interface,
and its path label equals the old peer's pre-transition path label. -/
theorem c6_relocation_merges_duplicate_key
    (hpk : List Nat) (ip6Of : List Nat → List Nat) (now : Nat)
    (msg : List Nat) (ep old : Peer) (l1 l2 : List Peer)
    (hstate : ep.state.toInt < 4)
    (hkey : old.key = hpk)
    (hne : old.handle ≠ ep.handle)
    (hl1 : ∀ q ∈ l1, q.key ≠ hpk)
    (hl2 : ∀ q ∈ l2, q.key ≠ hpk)
    (hh1 : ∀ q ∈ l1, q.handle ≠ old.handle) :
    (receivedAfterCryptoAuth hpk ip6Of now CaState.ESTABLISHED msg ep
        (l1 ++ old :: l2)).ep.addrPath = old.addrPath ∧
    (receivedAfterCryptoAuth hpk ip6Of now CaState.ESTABLISHED msg ep
        (l1 ++ old :: l2)).ep.key = hpk ∧
    (receivedAfterCryptoAuth hpk ip6Of now CaState.ESTABLISHED msg ep
        (l1 ++ old :: l2)).others = l1 ++ l2 ∧
    (receivedAfterCryptoAuth hpk ip6Of now CaState.ESTABLISHED msg ep
        (l1 ++ old :: l2)).actions
      = [Act.swapIf old.handle ep.handle,
         sendPeerAct EvKind.peerGone bcastPf old,
         sendPeerAct EvKind.peer bcastPf
           (receivedAfterCryptoAuth hpk ip6Of now CaState.ESTABLISHED msg ep
               (l1 ++ old :: l2)).ep] ∧
    ((receivedAfterCryptoAuth hpk ip6Of now CaState.ESTABLISHED msg ep
        (l1 ++ old :: l2)).ep ::
      (receivedAfterCryptoAuth hpk ip6Of now CaState.ESTABLISHED msg ep
        (l1 ++ old :: l2)).others).countP (fun q => q.key == hpk) = 1 := by
  have hfind :
      (l1 ++ old :: l2).find?
          (fun q => q.handle != ep.handle && q.key == hpk) = some old := by
    rw [List.find?_append]
    rw [List.find?_eq_none.mpr (by
      intro x hx
      simp only [Bool.and_eq_true, bne_iff_ne, beq_iff_eq, not_and]
      intro _
      exact hl1 x hx)]
    rw [List.find?_cons_of_pos _ (by
      simp only [Bool.and_eq_true, bne_iff_ne, beq_iff_eq]
      exact ⟨hne, hkey⟩)]
    rfl
  have herase :
      (l1 ++ old :: l2).eraseP (fun q => q.handle == old.handle) = l1 ++ l2 := by
    rw [List.eraseP_append_right _ (by
      intro b hb
      simp only [beq_iff_eq]
      exact hh1 b hb)]
    rw [List.eraseP_cons_of_pos (by simp)]
  simp only [receivedAfterCryptoAuth, moveEndpointIfNeeded, closeInterface]
  rw [if_pos hstate, if_pos trivial, hfind]
  dsimp only
  rw [herase]
  refine ⟨rfl, rfl, rfl, rfl, ?_⟩
  rw [List.countP_cons_of_pos _ _ (by simp)]
  rw [List.countP_eq_zero.mpr (by
    intro q hq
    simp only [beq_iff_eq]
    rcases List.mem_append.mp hq with h | h
    · exact hl1 q h
    · exact hl2 q h)]

/-- An established old peer holding path label 0xAAAA, for the relocation
witness. -/
def oldEstPeer : Peer :=
  { blankPeer 2 20 with state := PeerState.ESTABLISHED, key := [7],
                        addrPath := 0xAAAA }

/-- A younger peer of the same link finishing its handshake, for the
relocation witness. -/
def newHsPeer : Peer :=
  { blankPeer 3 30 with state := PeerState.HANDSHAKE3 }

/-- Claim C6 witness: a concrete relocation — the new session's peer takes
over path 0xAAAA while the old peer is destroyed after the swap. -/
theorem c6_relocation_merges_duplicate_key_witness :
    (receivedAfterCryptoAuth [7] (fun _ => []) 999 CaState.ESTABLISHED
        okFrame newHsPeer ([] ++ oldEstPeer :: [])).ep.addrPath = 0xAAAA :=
  (c6_relocation_merges_duplicate_key [7] (fun _ => []) 999 okFrame
      newHsPeer oldEstPeer [] [] (by decide) (by decide) (by decide)
      (by decide) (by decide) (by decide)).1

/-- Behavior of one ping tick on a single-peer map, by the branch taken:
skipped peers are untouched; a forgettable peer is destroyed with two
PEER_GONE publications (one direct, one from the free hook); a peer past
`unresponsiveAfter` always gets a PEER_GONE, but is marked Unresponsive and
pinged only when `pingCount % 8 == 0`, its counter incremented either way;
otherwise the peer is pinged as lazy. -/
lemma iciPing_singleton (c : IcConf) (now randV : Nat) (p : Peer) :
    iciPing c now randV [p] =
      if skippedPeer c now p then ([p], ([] : List Act))
      else if forgettablePeer c now p then
        ([], [sendPeerAct EvKind.peerGone bcastPf p,
              sendPeerAct EvKind.peerGone bcastPf p])
      else if now > p.timeOfLastMessage + c.unresponsiveAfterMilliseconds then
        if p.pingCount % 8 ≠ 0 then
          ([{ p with pingCount := (p.pingCount + 1) % 4294967296 }],
           [sendPeerAct EvKind.peerGone bcastPf p])
        else
          ([{ p with state := PeerState.UNRESPONSIVE,
                     pingCount := (p.pingCount + 1) % 4294967296 }],
           [sendPeerAct EvKind.peerGone bcastPf p, Act.ping p.handle p.addrPath])
      else
        ([{ p with pingCount := (p.pingCount + 1) % 4294967296 }],
         [Act.ping p.handle p.addrPath]) := by
  have h1 : randV % 1 = 0 := Nat.mod_one randV
  simp only [iciPing, iciLoop, h1, List.length_singleton, closeInterface,
             sendPing, skippedPeer, forgettablePeer]
  norm_num

/-- An established outbound peer, silent since time 0. -/
def silentEstPeer : Peer :=
  { blankPeer 1 10 with state := PeerState.ESTABLISHED, key := [7] }

/-- The ping tick at t = 20481, just past `unresponsiveAfter`. -/
def c1FirstTick : List Peer × List Act :=
  iciPing defaultConf 20481 0 [silentEstPeer]

/-- The following ping tick at t = 21505. -/
def c1SecondTick : List Peer × List Act :=
  iciPing defaultConf 21505 0 c1FirstTick.1

/-- Claim C1 counterexample: a peer silent past `unresponsiveAfter` draws a
PEER_GONE publication on the first tick (the one Established→Unresponsive
transition) and another on the next tick, while it stays alive in the map
with no further transition — two publications for one transition, both
while the peer is alive, refuting "0 times while alive" and "exactly once
per transition". -/
theorem c1_counterexample :
    c1FirstTick.2.countP (isGoneFor 1) = 1 ∧
    (c1FirstTick.1.getD 0 defaultPeer).state = PeerState.UNRESPONSIVE ∧
    c1FirstTick.1.length = 1 ∧
    c1SecondTick.2.countP (isGoneFor 1) = 1 ∧
    (c1SecondTick.1.getD 0 defaultPeer).state = PeerState.UNRESPONSIVE ∧
    c1SecondTick.1.length = 1 := by
  decide

/-- Claim C1 as amended: every ping tick that reaches a peer past
`unresponsiveAfter` publishes exactly one PEER_GONE for it while the peer
stays alive in the map — so repeated ticks repeat the publication after a
single Established→Unresponsive transition; destruction through the free
hook (`closeInterface`) publishes exactly one PEER_GONE, but the forget
path of the tick publishes one more directly before freeing, so a
forgotten incoming peer is destroyed with two publications. -/
theorem c1_peer_gone_republication
    (c : IcConf) (now randV : Nat) (p : Peer)
    (hskip : ¬ skippedPeer c now p)
    (hunresp : now > p.timeOfLastMessage + c.unresponsiveAfterMilliseconds) :
    (¬ forgettablePeer c now p →
       (iciPing c now randV [p]).2.countP (isGoneFor p.handle) = 1 ∧
       (iciPing c now randV [p]).1.length = 1) ∧
    (forgettablePeer c now p →
       (iciPing c now randV [p]).1 = [] ∧
       (iciPing c now randV [p]).2.countP (isGoneFor p.handle) = 2) ∧
    (∀ m : List Peer,
       (closeInterface p m).2.countP (isGoneFor p.handle) = 1) := by
  rw [iciPing_singleton, if_neg hskip]
  refine ⟨fun hf => ?_, fun hf => ?_, fun m => ?_⟩
  · rw [if_neg hf, if_pos hunresp]
    by_cases h8 : p.pingCount % 8 ≠ 0
    · rw [if_pos h8]
      exact ⟨by simp [sendPeerAct, isGoneFor, List.countP_cons,
                      List.countP_nil], rfl⟩
    · rw [if_neg h8]
      exact ⟨by simp [sendPeerAct, isGoneFor, isPingAct, List.countP_cons,
                      List.countP_nil], rfl⟩
  · rw [if_pos hf]
    exact ⟨rfl, by simp [sendPeerAct, isGoneFor, List.countP_cons,
                         List.countP_nil]⟩
  · simp [closeInterface, sendPeerAct, isGoneFor, List.countP_cons,
          List.countP_nil]

/-- Claim C1 witness: the amended claim at the concrete first tick. -/
theorem c1_peer_gone_republication_witness :
    (iciPing defaultConf 20481 0 [silentEstPeer]).2.countP (isGoneFor 1) = 1 :=
  ((c1_peer_gone_republication defaultConf 20481 0 silentEstPeer
      (by decide) (by decide)).1 (by decide)).1

/-- An established peer, silent since 0, whose `pingCount` is 1 (so the
unresponsive branch throttles). -/
def throttledPeer : Peer :=
  { blankPeer 1 10 with state := PeerState.ESTABLISHED, pingCount := 1 }

/-- Claim C3 counterexample: at t = 20481 the selected peer satisfies
`now > timeOfLastMessage + unresponsiveAfter`, PEER_GONE is published and
`pingCount` goes from 1 to 2, but since `pingCount % 8 != 0` no ping is
sent and — contrary to the claim — the state is *not* set to Unresponsive:
it remains Established, because the assignment sits after the throttle's
`continue`. -/
theorem c3_counterexample :
    ((iciPing defaultConf 20481 0 [throttledPeer]).1.getD 0 defaultPeer).state
      = PeerState.ESTABLISHED ∧
    (iciPing defaultConf 20481 0 [throttledPeer]).2.countP (isGoneFor 1) = 1 ∧
    (iciPing defaultConf 20481 0 [throttledPeer]).2.countP isPingAct = 0 ∧
    ((iciPing defaultConf 20481 0 [throttledPeer]).1.getD 0 defaultPeer).pingCount
      = 2 := by
  decide

/-- Claim C3 as amended: when the tick's selected peer satisfies
`now > timeOfLastMessage + unresponsiveAfter`, PEER_GONE is published and
`pingCount` is incremented in every case; but the state is set to
Unresponsive and a ping is sent exactly when `pingCount % 8 == 0` — when
`pingCount % 8 != 0` the tick leaves the state unchanged and sends no
ping. -/
theorem c3_unresponsive_throttle
    (c : IcConf) (now randV : Nat) (p : Peer)
    (hskip : ¬ skippedPeer c now p)
    (hforget : ¬ forgettablePeer c now p)
    (hunresp : now > p.timeOfLastMessage + c.unresponsiveAfterMilliseconds) :
    (iciPing c now randV [p]).2.countP (isGoneFor p.handle) = 1 ∧
    (p.pingCount % 8 = 0 →
       (iciPing c now randV [p]).1
         = [{ p with state := PeerState.UNRESPONSIVE,
                     pingCount := (p.pingCount + 1) % 4294967296 }] ∧
       (iciPing c now randV [p]).2.countP isPingAct = 1) ∧
    (p.pingCount % 8 ≠ 0 →
       (iciPing c now randV [p]).1
         = [{ p with pingCount := (p.pingCount + 1) % 4294967296 }] ∧
       (iciPing c now randV [p]).2.countP isPingAct = 0) := by
  rw [iciPing_singleton, if_neg hskip, if_neg hforget, if_pos hunresp]
  refine ⟨?_, fun h8 => ?_, fun h8 => ?_⟩
  · by_cases h8 : p.pingCount % 8 ≠ 0
    · rw [if_pos h8]
      simp [sendPeerAct, isGoneFor, List.countP_cons, List.countP_nil]
    · rw [if_neg h8]
      simp [sendPeerAct, isGoneFor, isPingAct, List.countP_cons,
            List.countP_nil]
  · rw [if_neg (by simp [h8])]
    exact ⟨rfl, by simp [sendPeerAct, isGoneFor, isPingAct, List.countP_cons,
                         List.countP_nil]⟩
  · rw [if_pos h8]
    exact ⟨rfl, by simp [sendPeerAct, isGoneFor, isPingAct, List.countP_cons,
                         List.countP_nil]⟩

/-- Claim C3 witness: the amended claim at a concrete peer with
`pingCount = 0`: the state becomes Unresponsive and one ping is sent. -/
theorem c3_unresponsive_throttle_witness :
    (iciPing defaultConf 20481 0 [silentEstPeer]).2.countP isPingAct = 1 :=
  ((c3_unresponsive_throttle defaultConf 20481 0 silentEstPeer
      (by decide) (by decide) (by decide)).2.1 (by decide)).2

/-- Scan invariant of the ping tick on a map with no forgettable peer (so
no entry is destroyed mid-scan): the map keeps its length, at most one ping
is issued, every emitted action concerns a peer that fails the two-sided
silence test, and every peer passing that test (skipped) survives in the
result map unchanged as an element. -/
lemma iciLoop_no_forget_inv (c : IcConf) (now : Nat) :
    ∀ (fuel i cnt : Nat) (m : List Peer),
      (∀ p ∈ m, ¬ forgettablePeer c now p) →
      ((iciLoop c now fuel i cnt m).1.length = m.length ∧
       (iciLoop c now fuel i cnt m).2.countP isPingAct ≤ 1 ∧
       (∀ a ∈ (iciLoop c now fuel i cnt m).2,
          ∃ p, p ∈ m ∧ p.handle = a.target ∧ ¬ skippedPeer c now p) ∧
       (∀ p ∈ m, skippedPeer c now p → p ∈ (iciLoop c now fuel i cnt m).1)) := by
  intro fuel
  induction fuel with
  | zero =>
    intro i cnt m hnf
    refine ⟨rfl, by simp [iciLoop], by simp [iciLoop], fun p hp _ => by
      simpa [iciLoop] using hp⟩
  | succ fuel ih =>
    intro i cnt m hnf
    simp only [iciLoop]
    by_cases hcnt : cnt < m.length
    · rw [if_pos hcnt]
      have hlen0 : 0 < m.length := Nat.lt_of_le_of_lt (Nat.zero_le cnt) hcnt
      have hi1 : (i + 1) % m.length < m.length := Nat.mod_lt _ hlen0
      have hepmem : m.getD ((i + 1) % m.length) defaultPeer ∈ m := by
        rw [List.getD_eq_getElem m defaultPeer hi1]
        exact List.getElem_mem hi1
      split_ifs with h2 h3 h4 h5
      · exact ih ((i + 1) % m.length) (cnt + 1) m hnf
      · exact absurd h3 (hnf _ hepmem)
      · -- unresponsive peer with pingCount % 8 != 0: PEER_GONE, bump, go on
        set ep := m.getD ((i + 1) % m.length) defaultPeer with hepdef
        set ep1 : Peer := { ep with pingCount := (ep.pingCount + 1) % 4294967296 }
          with hep1def
        set m1 := m.set ((i + 1) % m.length) ep1 with hm1def
        have hnf1 : ∀ q ∈ m1, ¬ forgettablePeer c now q := by
          intro q hq
          rcases List.mem_or_eq_of_mem_set hq with h | h
          · exact hnf q h
          · rw [h]
            exact hnf ep hepmem
        obtain ⟨ihl, ihc, iha, ihs⟩ := ih ((i + 1) % m.length) (cnt + 1) m1 hnf1
        refine ⟨?_, ?_, ?_, ?_⟩
        · rw [ihl, hm1def, List.length_set]
        · dsimp only
          rw [List.countP_cons_of_neg isPingAct _
               (by simp [sendPeerAct, isPingAct])]
          exact ihc
        · dsimp only
          intro a ha
          rcases List.mem_cons.mp ha with h | h
          · refine ⟨ep, hepmem, ?_, h2⟩
            rw [h]
            simp [sendPeerAct, Act.target]
          · obtain ⟨p, hpm1, hph, hpns⟩ := iha a h
            rcases List.mem_or_eq_of_mem_set hpm1 with hp | hp
            · exact ⟨p, hp, hph, hpns⟩
            · subst hp
              exact ⟨ep, hepmem, hph, hpns⟩
        · intro p hp hps
          refine ihs p ?_ hps
          refine mem_set_of_ne_getD m _ ep1 p hp hi1 ?_
          intro he
          rw [he] at hps
          exact h2 hps
      · -- unresponsive peer with pingCount % 8 == 0: PEER_GONE, mark, ping
        set ep := m.getD ((i + 1) % m.length) defaultPeer with hepdef
        refine ⟨by simp [List.length_set], ?_, ?_, ?_⟩
        · simp [sendPeerAct, isPingAct, List.countP_cons, List.countP_nil,
                sendPing]
        · intro a ha
          rcases List.mem_cons.mp ha with h | h
          · refine ⟨ep, hepmem, ?_, h2⟩
            rw [h]
            simp [sendPeerAct, Act.target]
          · rcases List.mem_cons.mp h with h | h
            · refine ⟨ep, hepmem, ?_, h2⟩
              rw [h]
              simp [sendPing, Act.target]
            · simp at h
        · intro p hp hps
          refine mem_set_of_ne_getD m _ _ p hp hi1 ?_
          intro he
          rw [he] at hps
          exact h2 hps
      · -- lazy peer: ping it, stop
        set ep := m.getD ((i + 1) % m.length) defaultPeer with hepdef
        refine ⟨by simp [List.length_set], ?_, ?_, ?_⟩
        · simp [isPingAct, List.countP_cons, List.countP_nil, sendPing]
        · intro a ha
          rcases List.mem_cons.mp ha with h | h
          · refine ⟨ep, hepmem, ?_, h2⟩
            rw [h]
            simp [sendPing, Act.target]
          · simp at h
        · intro p hp hps
          refine mem_set_of_ne_getD m _ _ p hp hi1 ?_
          intro he
          rw [he] at hps
          exact h2 hps
    · rw [if_neg hcnt]
      refine ⟨rfl, by simp, by simp, fun p hp _ => hp⟩

/-- An established peer heard from recently (t=3000) but last ponged long
ago (t=0): at t=4000 it fails the claim's "silent" condition yet the code
selects and pings it. -/
def recentMsgOldPingPeer : Peer :=
  { blankPeer 1 10 with state := PeerState.ESTABLISHED,
                        timeOfLastMessage := 3000, timeOfLastPing := 0 }

/-- Two established peers, both silent past `unresponsiveAfter`, both with
`pingCount = 1` so the ping throttle keeps the scan going. -/
def throttledPeerA : Peer :=
  { blankPeer 1 10 with state := PeerState.ESTABLISHED, pingCount := 1 }

/-- Companion to `throttledPeerA` on the same interface. -/
def throttledPeerB : Peer :=
  { blankPeer 2 20 with state := PeerState.ESTABLISHED, pingCount := 1 }

/-- Claim C2 counterexample.  First part: at t=4000 the peer satisfies
`now < timeOfLastMessage + pingAfter` (4000 < 6072), so by the claim it
fails the "peer is silent" condition and must be passed over; the tick
nevertheless pings it, because the source skips a peer only when *both*
conditions fail — the selection condition is a disjunction, not the
claimed conjunction.  Second part: a single tick over two throttled
unresponsive peers publishes PEER_GONE for *both* — more than one peer is
acted upon in one tick, because only an actual ping send ends the scan. -/
theorem c2_counterexample :
    (iciPing defaultConf 4000 0 [recentMsgOldPingPeer]).2 = [Act.ping 1 0] ∧
    4000 < recentMsgOldPingPeer.timeOfLastMessage
             + defaultConf.pingAfterMilliseconds ∧
    (iciPing defaultConf 20481 0 [throttledPeerA, throttledPeerB]).2.countP
        (isGoneFor 1) = 1 ∧
    (iciPing defaultConf 20481 0 [throttledPeerA, throttledPeerB]).2.countP
        (isGoneFor 2) = 1 := by
  decide

/-- Claim C2 as amended: on each tick, for each interface, the scan (from
the random offset) passes a peer over exactly when *both*
`now < timeOfLastMessage + pingAfter` and `now < timeOfLastPing + pingAfter`
hold; on a map with no forgettable peer and unique handles, at most one
ping is issued per tick (PEER_GONE publications for throttled unresponsive
peers do not stop the scan), the map keeps its length, and every
passed-over peer survives untouched with no action naming it. -/
theorem c2_tick_selection (c : IcConf) (now randV : Nat) (m : List Peer)
    (hnf : ∀ p ∈ m, ¬ forgettablePeer c now p)
    (hU : ∀ p ∈ m, ∀ q ∈ m, p.handle = q.handle → p = q) :
    (iciPing c now randV m).1.length = m.length ∧
    (iciPing c now randV m).2.countP isPingAct ≤ 1 ∧
    (∀ p ∈ m, skippedPeer c now p →
       p ∈ (iciPing c now randV m).1 ∧
       ∀ a ∈ (iciPing c now randV m).2, Act.target a ≠ p.handle) := by
  by_cases h0 : m.length = 0
  · have hempty : iciPing c now randV m = (m, []) := by
      simp [iciPing, h0]
    rw [hempty]
    exact ⟨rfl, by simp, fun p hp _ => ⟨hp, by simp⟩⟩
  · simp only [iciPing, if_neg h0]
    obtain ⟨hl, hc, ha, hs⟩ :=
      iciLoop_no_forget_inv c now m.length (randV % m.length) 0 m hnf
    refine ⟨hl, hc, fun p hp hps => ⟨hs p hp hps, fun a haa hcontra => ?_⟩⟩
    obtain ⟨q, hq, hqh, hqns⟩ := ha a haa
    have hqp : q = p := hU q hq p hp (by rw [hqh, hcontra])
    rw [hqp] at hqns
    exact hqns hps

/-- A peer both recently heard from and recently pinged, which the tick
must skip. -/
def skippedConcretePeer : Peer :=
  { blankPeer 1 10 with state := PeerState.ESTABLISHED,
                        timeOfLastMessage := 5000, timeOfLastPing := 5000 }

/-- Claim C2 witness: the amended claim at a concrete single-peer map. -/
theorem c2_tick_selection_witness :
    (iciPing defaultConf 5100 0 [skippedConcretePeer]).2.countP isPingAct ≤ 1 :=
  (c2_tick_selection defaultConf 5100 0 [skippedConcretePeer]
      (by decide) (by decide)).2.1
